import Mathlib

/-! The client and server rendering sessions of warpvr.

A shallow embedding of `src/client.cpp` and `src/server.cpp`.

* Bytes are `Fin 256`; a 32-bit scalar (a `float` or an `int`) is kept as the four
  bytes of its object representation, so copying bytes never needs arithmetic.
* C++ `int` values that the sessions compute with (widths, heights) are `Int`;
  a `size_t` count is a `Nat`, obtained from an `int` by `Int.toNat`.
* Calls into collaborators (the connection, the connection manager, the
  renderers, `std::cerr`) are recorded, in program order, in a list of effects.
* The two threads of the client are interleaved at the granularity of one lock
  section or one evaluation of the busy-wait condition.
-/

namespace WarpVR

/-! ## Scalars and records -/

/-- One `char` of a message payload or of an object representation. -/
abbrev byte := Fin 256

/-- The four bytes of a 32-bit scalar (`float` or `int`), in memory order. -/
structure word where
  b0 : byte
  b1 : byte
  b2 : byte
  b3 : byte
deriving DecidableEq, Repr

/-- The type `vec3` of three `float`s. -/
structure vec3 where
  x : word
  y : word
  z : word
deriving DecidableEq, Repr

/-- The type `vec4` of four `float`s, `sizeof(vec4) = 16`. -/
structure vec4 where
  x : word
  y : word
  z : word
  w : word
deriving DecidableEq, Repr

/-- The result type of `pinhole_camera::get_viewport`. -/
structure recti where
  x : Int
  y : Int
  w : Int
  h : Int
deriving DecidableEq, Repr

/-- The value of `sizeof(vec4)`. -/
def sizeof_vec4 : Nat := 16

def zero_word : word := ⟨0, 0, 0, 0⟩

def zero_vec4 : vec4 := ⟨zero_word, zero_word, zero_word, zero_word⟩

def bytes_of_word (a : word) : List byte := [a.b0, a.b1, a.b2, a.b3]

/-- The word stored at offset `i` of a byte buffer. -/
def word_at (l : List byte) (i : Nat) : word :=
  ⟨l.getD i 0, l.getD (i + 1) 0, l.getD (i + 2) 0, l.getD (i + 3) 0⟩

/-- The value of a little-endian two's complement `int`. -/
def int_of_word (a : word) : Int :=
  let u : Nat := a.b0.val + 256 * a.b1.val + 65536 * a.b2.val + 16777216 * a.b3.val
  if u < 2147483648 then (u : Int) else (u : Int) - 4294967296

/-- The little-endian two's complement representation of an `int`. -/
def word_of_int (i : Int) : word :=
  let u : Nat := (i % 4294967296).toNat
  ⟨Fin.ofNat (u % 256), Fin.ofNat (u / 256 % 256), Fin.ofNat (u / 65536 % 256),
   Fin.ofNat (u / 16777216 % 256)⟩

def bytes_of_vec3 (v : vec3) : List byte :=
  bytes_of_word v.x ++ bytes_of_word v.y ++ bytes_of_word v.z

def bytes_of_vec4 (v : vec4) : List byte :=
  bytes_of_word v.x ++ bytes_of_word v.y ++ bytes_of_word v.z ++ bytes_of_word v.w

def vec3_at (l : List byte) (i : Nat) : vec3 :=
  ⟨word_at l i, word_at l (i + 4), word_at l (i + 8)⟩

def vec4_at (l : List byte) (i : Nat) : vec4 :=
  ⟨word_at l i, word_at l (i + 4), word_at l (i + 8), word_at l (i + 12)⟩

/-- The storage of an `aligned_vector<vec4>`, byte by byte. -/
def bytes_of_vec4s : List vec4 → List byte
  | [] => []
  | v :: vs => bytes_of_vec4 v ++ bytes_of_vec4s vs

/-- The first `n` records of 16 bytes each read from a byte buffer. -/
def vec4s_of_bytes : Nat → List byte → List vec4
  | 0, _ => []
  | n + 1, l => vec4_at l 0 :: vec4s_of_bytes n (l.drop 16)

/-! ## The camera -/

/-- Modelled from the spec: the class `pinhole_camera` of the visionaray library is
not among the sources. The spec gives the camera as nine `float`s (eye, center,
up), the four `int`s of the viewport rectangle and three projection `float`s, which
is also its payload on the wire; `operator==` is exact structural comparison. -/
structure pinhole_camera where
  eye : vec3
  center : vec3
  up : vec3
  viewport_x : word
  viewport_y : word
  viewport_w : word
  viewport_h : word
  fov : word
  near : word
  far : word
deriving DecidableEq, Repr

/-- Modelled from the spec: `sizeof(pinhole_camera)`, sixteen 4-byte scalars. -/
def sizeof_pinhole_camera : Nat := 64

namespace pinhole_camera

/-- The accessor `pinhole_camera::get_viewport`. -/
def get_viewport (c : pinhole_camera) : recti :=
  ⟨int_of_word c.viewport_x, int_of_word c.viewport_y,
   int_of_word c.viewport_w, int_of_word c.viewport_h⟩

/-- The setter `pinhole_camera::set_viewport`. -/
def set_viewport (c : pinhole_camera) (x y w h : Int) : pinhole_camera :=
  { c with viewport_x := word_of_int x, viewport_y := word_of_int y,
           viewport_w := word_of_int w, viewport_h := word_of_int h }

end pinhole_camera

/-- The bytes `(char*)&cam .. (char*)&cam + sizeof(cam)` of a camera object. -/
def bytes_of_camera (c : pinhole_camera) : List byte :=
  bytes_of_vec3 c.eye ++ bytes_of_vec3 c.center ++ bytes_of_vec3 c.up ++
  bytes_of_word c.viewport_x ++ bytes_of_word c.viewport_y ++
  bytes_of_word c.viewport_w ++ bytes_of_word c.viewport_h ++
  bytes_of_word c.fov ++ bytes_of_word c.near ++ bytes_of_word c.far

/-- The camera read by `*reinterpret_cast<pinhole_camera*>(message->data())`. -/
def camera_of_bytes (l : List byte) : pinhole_camera :=
  ⟨vec3_at l 0, vec3_at l 12, vec3_at l 24,
   word_at l 36, word_at l 40, word_at l 44, word_at l 48,
   word_at l 52, word_at l 56, word_at l 60⟩

/-! ## Messages and effects -/

/-- Modelled from the spec: `common.h`, which declares the message kinds, is not
among the sources; the spec gives the tags `1=Camera`, `2=PointCloud`, `3=Colors`. -/
def MtCamera : Nat := 1

/-- Modelled from the spec: the kind tag of a point cloud message. -/
def MtPointCloud : Nat := 2

/-- Modelled from the spec: the kind tag of a colors message. -/
def MtColors : Nat := 3

/-- An `async::message`: its `type()` and the `size()` bytes at `data()`. -/
structure message where
  type : Nat
  data : List byte
deriving DecidableEq, Repr

/-- The accessor `message->size()`. -/
def message.size (m : message) : Nat := m.data.length

/-- The value `async::connection::reason` of a completion callback. -/
inductive reason where
  | Read
  | Write
deriving DecidableEq, Repr

/-- A `boost::system::error_code`: `none` is success, `some s` an error whose
`message()` is `s`. -/
abbrev error_code := Option String

/-- A call into a collaborator, as seen from a session. -/
inductive effect where
  /-- The call `manager->stop()`. -/
  | stop
  /-- A line written to the console about a failure. -/
  | report (line : String)
  /-- The call `conn->write(type, begin, end)`; the message holds the bytes of `[begin, end)`. -/
  | write (m : message)
  /-- The call `rend.resize(w, h)` of the server. -/
  | resize (w h : Int)
  /-- The call `rend.render()` of the server, with the camera it renders and the
  values of `rend.width()` and `rend.height()` at the call. -/
  | render (cam : pinhole_camera) (width height : Int)
deriving DecidableEq, Repr

/-- Whether an effect is a write of a message of kind `t`. -/
def effect.is_write_of (t : Nat) : effect → Bool
  | .write m => m.type == t
  | _ => false

/-- Whether an effect is a write. -/
def effect.is_write : effect → Bool
  | .write _ => true
  | _ => false

/-- Whether an effect is a render call. -/
def effect.is_render : effect → Bool
  | .render _ _ _ => true
  | _ => false

/-! ## The client (`src/client.cpp`) -/

/-- The method `aligned_vector<vec4>::resize(n)`. -/
def vector_resize (v : List vec4) (n : Nat) : List vec4 :=
  v.take n ++ List.replicate (n - v.length) zero_vec4

/-- The call `memcpy((char*)dst.data(), src, n)` into a vector of `vec4`. Reading
past the end of the source buffer or writing past the end of the vector's storage
is undefined behaviour and gives `none`. -/
def memcpy (dst : List vec4) (src : List byte) (n : Nat) : Option (List vec4) :=
  if src.length < n ∨ dst.length * sizeof_vec4 < n then none
  else some (vec4s_of_bytes dst.length (src.take n ++ (bytes_of_vec4s dst).drop n))

/-- Where the network thread of the client stands. Completion callbacks of one
connection never run concurrently, so a callback starts only from `idle`. -/
inductive net_state where
  /-- The call `connect` was made; `handle_new_connection` has not run yet. -/
  | connecting
  /-- No callback is running. -/
  | idle
  /-- Inside `handle_message`, at the condition of `while (camera == old_camera)`. -/
  | polling
  /-- Inside `handle_message`, past the loop and before the lock of line 157. -/
  | leaving
deriving DecidableEq, Repr

/-- The fields of `struct client`, with the calls it made on its connection
manager, its connection and `std::cerr` (`trace`) and the position of its network
thread (`net`). -/
structure client where
  camera : pinhole_camera
  old_camera : pinhole_camera
  spheres : List vec4
  sphere_colors : List vec4
  width : Int
  height : Int
  newData : Bool
  net : net_state
  trace : List effect
deriving DecidableEq, Repr

namespace client

/-- The constructor `client::client`. The two cameras are default-constructed; the
value that the library gives each of them is a parameter. -/
def new (camera0 old_camera0 : pinhole_camera) : client :=
  { camera := camera0, old_camera := old_camera0, spheres := [], sphere_colors := [],
    width := 0, height := 0, newData := false, net := .connecting, trace := [] }

/-- The method `client::resize` (lines 98-106). -/
def resize (c : client) (w h : Int) : client :=
  { c with width := w, height := h,
           spheres := vector_resize c.spheres (w * h).toNat,
           sphere_colors := vector_resize c.sphere_colors (w * h).toNat }

/-- The call `conn->write(MtCamera, (char*)&cam, (char*)&cam + sizeof(cam))`. -/
def write_camera (c : client) (cam : pinhole_camera) : client :=
  { c with trace := c.trace ++ [effect.write ⟨MtCamera, bytes_of_camera cam⟩] }

/-- The method `client::handle_message` (lines 125-167) up to its busy-wait: for a
`Colors` read it ends at the first evaluation of the loop condition (line 153),
for every other callback it runs to the end. -/
def handle_message (c : client) (r : reason) (m : message) (e : error_code) :
    Option client :=
  match e with
  | some s =>
    some { c with trace := c.trace ++ [effect.report ("client: error: " ++ s), effect.stop] }
  | none =>
    match r with
    | .Read =>
      if m.type = MtPointCloud then
        (memcpy c.spheres m.data ((c.width * c.height).toNat * sizeof_vec4)).map
          fun v => { c with spheres := v }
      else if m.type = MtColors then
        (memcpy c.sphere_colors m.data ((c.width * c.height).toNat * sizeof_vec4)).map
          fun v => { c with sphere_colors := v, newData := true, net := .polling }
      else some c
    | .Write => some c

/-- One evaluation of the condition of `while (camera == old_camera)` (line 153):
the thread stays in the loop on equal cameras and leaves it otherwise. -/
def wait_poll (c : client) : client :=
  if c.camera = c.old_camera then c else { c with net := .leaving }

/-- The rest of `client::handle_message` after the loop (lines 157-161): under the
lock the camera is recorded in `old_camera` and copied, then it is written. -/
def wait_leave (c : client) : client :=
  write_camera { c with old_camera := c.camera, net := .idle } c.camera

/-- The method `client::handle_new_connection` (lines 169-196). -/
def handle_new_connection (c : client) (e : error_code) : client × Bool :=
  match e with
  | some s =>
    ({ c with trace := c.trace ++
        [effect.report ("client: could not connect to server: " ++ s), effect.stop] }, false)
  | none => (write_camera { c with net := .idle } c.camera, true)

end client

/-- A call on the `sphere_renderer` of the client (`src/sphere_renderer.h`). -/
inductive sphere_call where
  /-- The call `reset(spheres, colors, num_spheres)` with the vectors the two
  pointers point into. -/
  | reset (spheres colors : List vec4) (num_spheres : Nat)
  | resize (w h : Int)
  | render (cam : pinhole_camera)
deriving DecidableEq, Repr

/-- Whether a call is a `reset`. -/
def sphere_call.is_reset : sphere_call → Bool
  | .reset _ _ _ => true
  | _ => false

namespace Client

/-- The `struct renderer` of the client: the client it refers to, the calls made
on its `sphere_renderer` (`rend`), its camera, its two flags and the window size
kept by the viewer base class. -/
structure renderer where
  cli : client
  rend : List sphere_call
  cam : pinhole_camera
  measure_bvh_performance : Bool
  measure_performance : Bool
  width : Int
  height : Int
deriving DecidableEq, Repr

namespace renderer

/-- The method `renderer::on_display` (lines 232-304). -/
def on_display (r : renderer) : renderer :=
  let r1 : renderer :=
    if r.cli.newData then
      { r with
        rend := r.rend ++ List.replicate (if r.measure_bvh_performance then 100 else 1)
          (sphere_call.reset r.cli.spheres r.cli.sphere_colors r.cli.spheres.length),
        cli := { r.cli with newData := false } }
    else r
  let n : Nat := if r1.measure_performance then 100 else 1
  { r1 with rend := r1.rend ++ List.replicate n (sphere_call.render r1.cam) }

/-- The method `renderer::on_mouse_move` (lines 370-379). The manipulators that the
viewer base class runs afterwards leave the camera `next`. -/
def on_mouse_move (r : renderer) (pressed : Bool) (next : pinhole_camera) : renderer :=
  let r1 : renderer := if pressed then { r with cli := { r.cli with camera := r.cam } } else r
  { r1 with cam := next }

/-- The method `renderer::on_mouse_up` (lines 381-390). -/
def on_mouse_up (r : renderer) (pressed : Bool) (next : pinhole_camera) : renderer :=
  let r1 : renderer := if pressed then { r with cli := { r.cli with camera := r.cam } } else r
  { r1 with cam := next }

/-- The method `renderer::on_resize` (lines 397-405). The library call
`cam.perspective`, computed in floating point, is the parameter `perspective`; the
viewer base class records the new window size. -/
def on_resize (perspective : pinhole_camera → Int → Int → pinhole_camera)
    (r : renderer) (w h : Int) : renderer :=
  { r with cam := perspective (r.cam.set_viewport 0 0 w h) w h,
           rend := r.rend ++ [sphere_call.resize w h],
           width := w, height := h }

end renderer

/-- An event of the client process: a step of `main` before the threads start, a
callback of the render thread, or a step of the network thread. -/
inductive event where
  /-- The statement `cli.camera = rend.cam` of `main` (line 436). -/
  | set_camera
  /-- The call `cli.resize(w, h)` of `main` (line 437). -/
  | cli_resize (w h : Int)
  | on_display
  | on_mouse_move (pressed : Bool) (next : pinhole_camera)
  | on_mouse_up (pressed : Bool) (next : pinhole_camera)
  | on_resize (w h : Int)
  /-- The connection manager calls `client::handle_new_connection`. -/
  | new_connection (e : error_code)
  /-- The connection calls `client::handle_message`. -/
  | completion (r : reason) (m : message) (e : error_code)
  /-- The network thread evaluates the condition of its busy-wait. -/
  | poll
  /-- The network thread runs lines 157-161. -/
  | leave

/-- One event of the client process. The result is `none` when the event cannot
happen in this state (a callback while another one is running, a step of the
busy-wait outside of it) or when the behaviour is undefined. -/
def step (perspective : pinhole_camera → Int → Int → pinhole_camera)
    (r : renderer) : event → Option renderer
  | .set_camera => some { r with cli := { r.cli with camera := r.cam } }
  | .cli_resize w h => some { r with cli := r.cli.resize w h }
  | .on_display => some r.on_display
  | .on_mouse_move pressed next => some (r.on_mouse_move pressed next)
  | .on_mouse_up pressed next => some (r.on_mouse_up pressed next)
  | .on_resize w h => some (r.on_resize perspective w h)
  | .new_connection e =>
    if r.cli.net = .connecting then some { r with cli := (r.cli.handle_new_connection e).1 }
    else none
  | .completion rs m e =>
    if r.cli.net = .idle then (r.cli.handle_message rs m e).map fun c => { r with cli := c }
    else none
  | .poll => if r.cli.net = .polling then some { r with cli := r.cli.wait_poll } else none
  | .leave => if r.cli.net = .leaving then some { r with cli := r.cli.wait_leave } else none

/-- A run of the client process: the events of a list, one after the other. -/
def run (perspective : pinhole_camera → Int → Int → pinhole_camera) :
    renderer → List event → Option renderer
  | r, [] => some r
  | r, ev :: evs => (step perspective r ev).bind fun r1 => run perspective r1 evs

/-- The client process when `main` has constructed the client and the renderer:
a window of `width` by `height`, no call made yet. -/
def start (camera0 old_camera0 cam0 : pinhole_camera) (width height : Int) : renderer :=
  { cli := client.new camera0 old_camera0, rend := [], cam := cam0,
    measure_bvh_performance := false, measure_performance := false,
    width := width, height := height }

end Client

/-! ## The server (`src/server.cpp`) -/

/-- The interface of `class volume_renderer` (`src/volume_renderer.h`), whose
implementation is not among the sources: `σ` is its state, and a pointer it
returns is given by the byte found at each offset from it. -/
structure volume_renderer (σ : Type) where
  resize : σ → Int → Int → σ
  render : σ → pinhole_camera → σ
  num_samples : σ → Nat
  object_space_samples : σ → Nat → byte
  color_buffer : σ → Nat → byte

/-- The bytes of the range `[p, p + n)`. -/
def range_bytes (p : Nat → byte) (n : Nat) : List byte := (List.range n).map p

namespace Server

/-- The `struct renderer` of the server: its camera, its volume renderer and the
window size kept by the viewer base class (`rend.width()`, `rend.height()`). -/
structure renderer (σ : Type) where
  cam : pinhole_camera
  volrend : σ
  width : Int
  height : Int

namespace renderer

/-- The constructor `renderer::renderer`: a viewer of size `0` by `0`. -/
def new {σ : Type} (cam0 : pinhole_camera) (volrend0 : σ) : renderer σ :=
  { cam := cam0, volrend := volrend0, width := 0, height := 0 }

/-- The method `renderer::render` (lines 68-71). -/
def render {σ : Type} (V : volume_renderer σ) (r : renderer σ) : renderer σ :=
  { r with volrend := V.render r.volrend r.cam }

/-- Modelled from the spec: `renderer::on_resize` (lines 101-104) calls
`viewer_type::resize`, which is not among the sources; in the spec the server
resizes its frame buffer, so that its dimensions become `w` and `h`. -/
def on_resize {σ : Type} (r : renderer σ) (w h : Int) : renderer σ :=
  { r with width := w, height := h }

/-- The method `renderer::resize` (lines 73-77). -/
def resize {σ : Type} (V : volume_renderer σ) (r : renderer σ) (w h : Int) : renderer σ :=
  on_resize { r with volrend := V.resize r.volrend w h } w h

end renderer

/-- The `struct server`: the renderer it refers to and the calls it made on its
connection manager, its connection, its renderer and the console. -/
structure server (σ : Type) where
  rend : renderer σ
  trace : List effect

namespace server

/-- The constructor `server::server`. -/
def new {σ : Type} (rend : renderer σ) : server σ := { rend := rend, trace := [] }

/-- The effect is appended to the calls made so far. -/
def emit {σ : Type} (s : server σ) (e : effect) : server σ :=
  { s with trace := s.trace ++ [e] }

/-- The message of the call `conn->write(MtPointCloud, spheresBegin, spheresEnd)`
(lines 172-175). -/
def points_message {σ : Type} (V : volume_renderer σ) (r : renderer σ) : message :=
  ⟨MtPointCloud,
   range_bytes (V.object_space_samples r.volrend) (V.num_samples r.volrend * sizeof_vec4)⟩

/-- The message of the call `conn->write(MtColors, colorsBegin, colorsEnd)`
(lines 182-184). -/
def colors_message {σ : Type} (V : volume_renderer σ) (r : renderer σ) : message :=
  ⟨MtColors,
   range_bytes (V.color_buffer r.volrend) (V.num_samples r.volrend * sizeof_vec4)⟩

/-- The method `server::handle_message` (lines 142-195). The lines that print an
elapsed time are left out. -/
def handle_message {σ : Type} (V : volume_renderer σ) (s : server σ)
    (r : reason) (m : message) (e : error_code) : server σ :=
  match e with
  | some msg => (s.emit (effect.report ("server: error: " ++ msg))).emit effect.stop
  | none =>
    match r with
    | .Read =>
      if m.type = MtCamera then
        if m.size ≠ sizeof_pinhole_camera then
          s.emit (effect.report "server: size mismatch while reading")
        else
          let s1 : server σ := { s with rend := { s.rend with cam := camera_of_bytes m.data } }
          let viewport := s1.rend.cam.get_viewport
          let s2 : server σ :=
            if viewport.w ≠ s1.rend.width ∨ viewport.h ≠ s1.rend.height then
              { (s1.emit (effect.resize viewport.w viewport.h)) with
                rend := s1.rend.resize V viewport.w viewport.h }
            else s1
          let s3 : server σ :=
            { (s2.emit (effect.render s2.rend.cam s2.rend.width s2.rend.height)) with
              rend := s2.rend.render V }
          s3.emit (effect.write (points_message V s3.rend))
      else s
    | .Write =>
      if m.type = MtPointCloud then s.emit (effect.write (colors_message V s.rend))
      else s

/-- The method `server::handle_new_connection` (lines 197-215). -/
def handle_new_connection {σ : Type} (s : server σ) (e : error_code) : server σ × Bool :=
  match e with
  | some msg =>
    ((s.emit (effect.report ("server: could not connect to client: " ++ msg))).emit
      effect.stop, false)
  | none => (s, true)

end server

end Server

/-- The effects appended to the trace `old` to give the trace `new`. -/
def new_effects (old new : List effect) : List effect := new.drop old.length

/-- A volume renderer for examples: its state is the size it was resized to, it
has one sample per pixel and all its buffers are zero. -/
def sample_volrend : volume_renderer (Int × Int) where
  resize := fun _ w h => (w, h)
  render := fun v _ => v
  num_samples := fun v => (v.1 * v.2).toNat
  object_space_samples := fun _ _ => 0
  color_buffer := fun _ _ => 0

def zero_vec3 : vec3 := ⟨zero_word, zero_word, zero_word⟩

/-- A camera for examples: all its scalars are zero. -/
def zero_camera : pinhole_camera :=
  ⟨zero_vec3, zero_vec3, zero_vec3, zero_word, zero_word, zero_word, zero_word,
   zero_word, zero_word, zero_word⟩

/-- The calls appended to the list `old` of calls to give the list `new`. -/
def new_calls (old new : List sphere_call) : List sphere_call := new.drop old.length

/-- The `float` 1.0 (`0x3F800000`, little-endian). -/
def float_1 : word := ⟨0x00, 0x00, 0x80, 0x3F⟩

/-- The `float` 2.0 (`0x40000000`, little-endian). -/
def float_2 : word := ⟨0x00, 0x00, 0x00, 0x40⟩

/-- The `float` 3.0 (`0x40400000`, little-endian). -/
def float_3 : word := ⟨0x00, 0x00, 0x40, 0x40⟩

/-- The `float` 0.5 (`0x3F000000`, little-endian). -/
def float_half : word := ⟨0x00, 0x00, 0x00, 0x3F⟩

/-- The point `(1, 2, 3, 1)`. -/
def sample_point : vec4 := ⟨float_1, float_2, float_3, float_1⟩

/-- The color `(0.5, 0.5, 0.5, 1.0)`. -/
def sample_color : vec4 := ⟨float_half, float_half, float_half, float_1⟩

/-- A `PointCloud` message of sixteen points `(1, 2, 3, 1)`. -/
def sample_points_message : message :=
  ⟨MtPointCloud, bytes_of_vec4s (List.replicate 16 sample_point)⟩

/-- A `Colors` message of sixteen colors `(0.5, 0.5, 0.5, 1.0)`. -/
def sample_colors_message : message :=
  ⟨MtColors, bytes_of_vec4s (List.replicate 16 sample_color)⟩

/-- A renderer of the client for examples, around the client `c`. -/
def sample_renderer (c : client) : Client.renderer :=
  { cli := c, rend := [], cam := zero_camera, measure_bvh_performance := false,
    measure_performance := false, width := 0, height := 0 }

/-- The frame buffer pair of the client matches its viewport: both vectors have
`width * height` elements. -/
def client.buffers_match (c : client) : Prop :=
  (c.spheres.length : Int) = c.width * c.height ∧
  (c.sphere_colors.length : Int) = c.width * c.height

/-- The sizes passed to `cli.resize` are not negative. -/
def Client.event.sizes_ok : Client.event → Prop
  | .cli_resize w h => 0 ≤ w ∧ 0 ≤ h
  | _ => True

/-- The number of `Camera` messages written in a trace. -/
def camera_writes (t : List effect) : Nat := (t.filter (effect.is_write_of MtCamera)).length

/-- The number of writes in a trace. -/
def writes (t : List effect) : Nat := (t.filter effect.is_write).length

/-- Whether an event is the read completion, without error, of a `Colors` message. -/
def Client.event.is_colors_read : Client.event → Bool
  | .completion .Read m none => m.type == MtColors
  | _ => false

/-- The number of `Colors` messages received in a list of events. -/
def colors_received (evs : List Client.event) : Nat :=
  (evs.filter Client.event.is_colors_read).length

/-- The number of cameras (0 or 1) that the network thread still has to send
before it returns from the callback it is in. -/
def net_state.pending : net_state → Nat
  | .polling => 1
  | .leaving => 1
  | _ => 0

/-- Whether (1) or not (0) the connection has been established. -/
def net_state.connected : net_state → Nat
  | .connecting => 0
  | _ => 1

/-- A camera for examples with a viewport of 1 by 1 at the origin. -/
def sample_camera : pinhole_camera :=
  { zero_camera with viewport_w := ⟨1, 0, 0, 0⟩, viewport_h := ⟨1, 0, 0, 0⟩ }

/-- A stand-in for `cam.perspective` in examples: the camera is left as it is. -/
def sample_perspective : pinhole_camera → Int → Int → pinhole_camera := fun c _ _ => c

/-- The client process before `main` copies the camera: both cameras of the client
are as constructed and equal, the camera of the renderer is `sample_camera`. -/
def sample_start : Client.renderer := Client.start zero_camera zero_camera sample_camera 1 1

/-- One full cycle of the client with a viewport of 1 by 1 during which the render
thread never touches the camera: `main` copies the camera and sizes the client, the
connection is established, a `PointCloud` and a `Colors` message of one record are
read, and the network thread evaluates its wait condition once and goes on. -/
def sample_cycle : List Client.event :=
  [.set_camera, .cli_resize 1 1, .new_connection none,
   .completion .Read ⟨MtPointCloud, bytes_of_vec4 sample_point⟩ none,
   .completion .Read ⟨MtColors, bytes_of_vec4 sample_color⟩ none,
   .poll, .leave]

/-- The client process at the end of `sample_cycle`. -/
def sample_cycle_end : Client.renderer :=
  { cli :=
      { camera := sample_camera, old_camera := sample_camera, spheres := [sample_point],
        sphere_colors := [sample_color], width := 1, height := 1, newData := true,
        net := .idle,
        trace := [effect.write ⟨MtCamera, bytes_of_camera sample_camera⟩,
                  effect.write ⟨MtCamera, bytes_of_camera sample_camera⟩] },
    rend := [], cam := sample_camera, measure_bvh_performance := false,
    measure_performance := false, width := 1, height := 1 }

theorem camera_of_bytes_of_camera (c : pinhole_camera) :
    camera_of_bytes (bytes_of_camera c) = c := by
  cases c
  simp [camera_of_bytes, bytes_of_camera, vec3_at, word_at, bytes_of_vec3, bytes_of_word]

theorem length_bytes_of_camera (c : pinhole_camera) :
    (bytes_of_camera c).length = sizeof_pinhole_camera := by
  simp [bytes_of_camera, bytes_of_vec3, bytes_of_word, sizeof_pinhole_camera]

theorem length_range_bytes (p : Nat → byte) (n : Nat) : (range_bytes p n).length = n := by
  simp [range_bytes]

namespace Server

/-- C3: a `Camera` read whose payload size is not `sizeof(pinhole_camera)` is
reported and dropped: the renderer (its camera, its frame dimensions, its volume
renderer) is unchanged and the only effect is the report, so nothing is resized,
rendered or written and the connection manager is not stopped. -/
theorem server_drops_camera_of_wrong_size {σ : Type} (V : volume_renderer σ) (s : server σ)
    (m : message) (hk : m.type = MtCamera) (hs : m.size ≠ sizeof_pinhole_camera) :
    (server.handle_message V s .Read m none).rend = s.rend ∧
    (server.handle_message V s .Read m none).trace =
      s.trace ++ [effect.report "server: size mismatch while reading"] := by
  simp [server.handle_message, hk, hs, server.emit]

theorem server_drops_camera_of_wrong_size_witness :
    (server.handle_message sample_volrend (server.new (renderer.new zero_camera (0, 0)))
      .Read ⟨MtCamera, [0, 0, 0]⟩ none).rend = (server.new (renderer.new zero_camera (0, 0))).rend ∧
    (server.handle_message sample_volrend (server.new (renderer.new zero_camera (0, 0)))
      .Read ⟨MtCamera, [0, 0, 0]⟩ none).trace =
      (server.new (renderer.new zero_camera ((0 : Int), (0 : Int)))).trace ++
        [effect.report "server: size mismatch while reading"] :=
  server_drops_camera_of_wrong_size sample_volrend _ ⟨MtCamera, [0, 0, 0]⟩ rfl (by decide)

/-- The trace and the frame dimensions after an accepted `Camera` read. -/
theorem handle_message_camera_read {σ : Type} (V : volume_renderer σ) (s : server σ)
    (m : message) (hk : m.type = MtCamera) (hs : m.size = sizeof_pinhole_camera) :
    (server.handle_message V s .Read m none).trace =
      s.trace ++
      (if (camera_of_bytes m.data).get_viewport.w ≠ s.rend.width ∨
          (camera_of_bytes m.data).get_viewport.h ≠ s.rend.height
       then [effect.resize (camera_of_bytes m.data).get_viewport.w
               (camera_of_bytes m.data).get_viewport.h]
       else []) ++
      [effect.render (camera_of_bytes m.data) (camera_of_bytes m.data).get_viewport.w
         (camera_of_bytes m.data).get_viewport.h,
       effect.write (server.points_message V (server.handle_message V s .Read m none).rend)] ∧
    (server.handle_message V s .Read m none).rend.cam = camera_of_bytes m.data ∧
    (server.handle_message V s .Read m none).rend.width =
      (camera_of_bytes m.data).get_viewport.w ∧
    (server.handle_message V s .Read m none).rend.height =
      (camera_of_bytes m.data).get_viewport.h := by
  by_cases hd : (camera_of_bytes m.data).get_viewport.w ≠ s.rend.width ∨
      (camera_of_bytes m.data).get_viewport.h ≠ s.rend.height
  · simp [server.handle_message, hk, hs, server.emit, hd, renderer.resize, renderer.on_resize,
      renderer.render]
  · have hw : s.rend.width = (camera_of_bytes m.data).get_viewport.w := by
      by_contra h
      exact hd (Or.inl (Ne.symm h))
    have hh : s.rend.height = (camera_of_bytes m.data).get_viewport.h := by
      by_contra h
      exact hd (Or.inr (Ne.symm h))
    simp [server.handle_message, hk, hs, server.emit, hd, renderer.render, hw, hh]

/-- C4: for a `Camera` read of the right size the server resizes to the viewport
`(w, h)` of the camera exactly when it differs from its current frame dimensions,
the resize comes before the render, the render call sees the frame dimensions `w`
and `h` and the camera of the message, and the dimensions are `w` and `h` afterwards. -/
theorem server_resizes_before_render {σ : Type} (V : volume_renderer σ) (s : server σ)
    (m : message) (hk : m.type = MtCamera) (hs : m.size = sizeof_pinhole_camera) :
    ∃ pc : message,
      (server.handle_message V s .Read m none).trace =
        s.trace ++
        (if (camera_of_bytes m.data).get_viewport.w ≠ s.rend.width ∨
            (camera_of_bytes m.data).get_viewport.h ≠ s.rend.height
         then [effect.resize (camera_of_bytes m.data).get_viewport.w
                 (camera_of_bytes m.data).get_viewport.h]
         else []) ++
        [effect.render (camera_of_bytes m.data) (camera_of_bytes m.data).get_viewport.w
           (camera_of_bytes m.data).get_viewport.h, effect.write pc] ∧
      (server.handle_message V s .Read m none).rend.width =
        (camera_of_bytes m.data).get_viewport.w ∧
      (server.handle_message V s .Read m none).rend.height =
        (camera_of_bytes m.data).get_viewport.h := by
  obtain ⟨htr, -, hw, hh⟩ := handle_message_camera_read V s m hk hs
  exact ⟨_, htr, hw, hh⟩

theorem server_resizes_before_render_witness :
    ∃ pc : message,
      (server.handle_message sample_volrend (server.new (renderer.new zero_camera (0, 0)))
        .Read ⟨MtCamera, bytes_of_camera (zero_camera.set_viewport 0 0 2 3)⟩ none).trace =
        (server.new (renderer.new zero_camera ((0 : Int), (0 : Int)))).trace ++
        (if (camera_of_bytes (bytes_of_camera (zero_camera.set_viewport 0 0 2 3))).get_viewport.w
              ≠ 0 ∨
            (camera_of_bytes (bytes_of_camera (zero_camera.set_viewport 0 0 2 3))).get_viewport.h
              ≠ 0
         then [effect.resize
                 (camera_of_bytes (bytes_of_camera (zero_camera.set_viewport 0 0 2 3))).get_viewport.w
                 (camera_of_bytes (bytes_of_camera (zero_camera.set_viewport 0 0 2 3))).get_viewport.h]
         else []) ++
        [effect.render (camera_of_bytes (bytes_of_camera (zero_camera.set_viewport 0 0 2 3)))
           (camera_of_bytes (bytes_of_camera (zero_camera.set_viewport 0 0 2 3))).get_viewport.w
           (camera_of_bytes (bytes_of_camera (zero_camera.set_viewport 0 0 2 3))).get_viewport.h,
         effect.write pc] ∧
      (server.handle_message sample_volrend (server.new (renderer.new zero_camera (0, 0)))
        .Read ⟨MtCamera, bytes_of_camera (zero_camera.set_viewport 0 0 2 3)⟩ none).rend.width =
        (camera_of_bytes (bytes_of_camera (zero_camera.set_viewport 0 0 2 3))).get_viewport.w ∧
      (server.handle_message sample_volrend (server.new (renderer.new zero_camera (0, 0)))
        .Read ⟨MtCamera, bytes_of_camera (zero_camera.set_viewport 0 0 2 3)⟩ none).rend.height =
        (camera_of_bytes (bytes_of_camera (zero_camera.set_viewport 0 0 2 3))).get_viewport.h :=
  server_resizes_before_render sample_volrend (server.new (renderer.new zero_camera (0, 0)))
    ⟨MtCamera, bytes_of_camera (zero_camera.set_viewport 0 0 2 3)⟩ rfl
    (length_bytes_of_camera _)

/-- C5: handling an accepted `Camera` read appends one write, of a `PointCloud`
message of `num_samples * 16` bytes, directly after the render call and after
effects that are no writes; handling the write completion of a `PointCloud` message
appends exactly one effect, the write of a `Colors` message of `num_samples * 16`
bytes, and leaves the renderer as it was; handling the write completion of a
`Colors` message changes nothing; and whatever the callback, a `Colors` write is
issued only by the write completion of a `PointCloud` message. -/
theorem server_writes_points_then_colors {σ : Type} (V : volume_renderer σ) (s : server σ)
    (m : message) :
    (m.type = MtCamera → m.size = sizeof_pinhole_camera →
      ∃ (pre : List effect) (cam : pinhole_camera) (w h : Int) (pc : message),
        (server.handle_message V s .Read m none).trace =
          s.trace ++ pre ++ [effect.render cam w h, effect.write pc] ∧
        pre.filter effect.is_write = [] ∧
        pc.type = MtPointCloud ∧
        pc.size = V.num_samples (server.handle_message V s .Read m none).rend.volrend *
          sizeof_vec4) ∧
    (m.type = MtPointCloud →
      ∃ col : message,
        (server.handle_message V s .Write m none).trace = s.trace ++ [effect.write col] ∧
        col.type = MtColors ∧
        col.size = V.num_samples s.rend.volrend * sizeof_vec4 ∧
        (server.handle_message V s .Write m none).rend = s.rend) ∧
    (m.type = MtColors → server.handle_message V s .Write m none = s) ∧
    (∀ (r : reason) (e : error_code) (col : message),
      effect.write col ∈ new_effects s.trace (server.handle_message V s r m e).trace →
      col.type = MtColors → r = .Write ∧ m.type = MtPointCloud ∧ e = none) := by
  refine ⟨?_, ?_, ?_, ?_⟩
  · intro hk hs
    by_cases hd : (camera_of_bytes m.data).get_viewport.w ≠ s.rend.width ∨
        (camera_of_bytes m.data).get_viewport.h ≠ s.rend.height
    · refine ⟨[effect.resize (camera_of_bytes m.data).get_viewport.w
          (camera_of_bytes m.data).get_viewport.h], camera_of_bytes m.data,
          (camera_of_bytes m.data).get_viewport.w, (camera_of_bytes m.data).get_viewport.h,
          server.points_message V (server.handle_message V s .Read m none).rend, ?_, ?_, ?_, ?_⟩
      · simp [server.handle_message, hk, hs, server.emit, hd, renderer.resize,
          renderer.on_resize, renderer.render]
      · simp [effect.is_write]
      · rfl
      · simp [server.handle_message, hk, hs, server.emit, hd, renderer.resize,
          renderer.on_resize, renderer.render, message.size, length_range_bytes,
          server.points_message]
    · refine ⟨[], camera_of_bytes m.data, s.rend.width, s.rend.height,
        server.points_message V (server.handle_message V s .Read m none).rend, ?_, ?_, ?_, ?_⟩
      · simp [server.handle_message, hk, hs, server.emit, hd, renderer.render]
      · rfl
      · rfl
      · simp [server.handle_message, hk, hs, server.emit, hd, renderer.render, message.size,
          length_range_bytes, server.points_message]
  · intro hk
    refine ⟨server.colors_message V s.rend, ?_, ?_, ?_, ?_⟩
    · simp [server.handle_message, hk, server.emit]
    · rfl
    · simp [message.size, length_range_bytes, server.colors_message]
    · simp [server.handle_message, hk, server.emit]
  · intro hk
    simp [server.handle_message, hk, MtColors, MtPointCloud]
  · intro r e col hmem hcol
    cases e with
    | some msg =>
      simp [server.handle_message, server.emit, new_effects] at hmem
    | none =>
      cases r with
      | Read =>
        by_cases hk : m.type = MtCamera
        · by_cases hs : m.size = sizeof_pinhole_camera
          · by_cases hd : (camera_of_bytes m.data).get_viewport.w ≠ s.rend.width ∨
                (camera_of_bytes m.data).get_viewport.h ≠ s.rend.height
            · simp [server.handle_message, hk, hs, server.emit, hd, new_effects,
                renderer.resize, renderer.on_resize, renderer.render] at hmem
              rw [hmem] at hcol
              simp [MtColors, MtPointCloud, server.points_message] at hcol
            · simp [server.handle_message, hk, hs, server.emit, hd, new_effects,
                renderer.render] at hmem
              rw [hmem] at hcol
              simp [MtColors, MtPointCloud, server.points_message] at hcol
          · simp [server.handle_message, hk, hs, server.emit, new_effects] at hmem
        · simp [server.handle_message, hk, new_effects] at hmem
      | Write =>
        by_cases hk : m.type = MtPointCloud
        · exact ⟨rfl, hk, rfl⟩
        · simp [server.handle_message, hk, new_effects] at hmem

theorem server_writes_points_then_colors_witness :
    ∃ col : message,
      (server.handle_message sample_volrend (server.new (renderer.new zero_camera (2, 3)))
        .Write ⟨MtPointCloud, []⟩ none).trace =
        (server.new (renderer.new zero_camera ((2 : Int), (3 : Int)))).trace ++
          [effect.write col] ∧
      col.type = MtColors ∧
      col.size = sample_volrend.num_samples
        (server.new (renderer.new zero_camera ((2 : Int), (3 : Int)))).rend.volrend *
          sizeof_vec4 ∧
      (server.handle_message sample_volrend (server.new (renderer.new zero_camera (2, 3)))
        .Write ⟨MtPointCloud, []⟩ none).rend =
        (server.new (renderer.new zero_camera ((2 : Int), (3 : Int)))).rend :=
  (server_writes_points_then_colors sample_volrend
    (server.new (renderer.new zero_camera (2, 3))) ⟨MtPointCloud, []⟩).2.1 rfl

/-- C6: the `Camera` message that the client writes for its camera `C`, at
connection time and after the busy-wait alike, has `sizeof(pinhole_camera)` bytes,
so that the size check of the server passes; the server then stores `C` itself in
`rend.cam`, renders `C`, and the viewport it reads is the viewport of `C`. -/
theorem camera_message_round_trip {σ : Type} (V : volume_renderer σ) (s : server σ)
    (cl : client) :
    (cl.handle_new_connection none).1.trace =
      cl.trace ++ [effect.write ⟨MtCamera, bytes_of_camera cl.camera⟩] ∧
    cl.wait_leave.trace = cl.trace ++ [effect.write ⟨MtCamera, bytes_of_camera cl.camera⟩] ∧
    (⟨MtCamera, bytes_of_camera cl.camera⟩ : message).size = sizeof_pinhole_camera ∧
    (server.handle_message V s .Read ⟨MtCamera, bytes_of_camera cl.camera⟩ none).rend.cam =
      cl.camera ∧
    (server.handle_message V s .Read ⟨MtCamera, bytes_of_camera cl.camera⟩ none).rend.cam.get_viewport
      = cl.camera.get_viewport ∧
    effect.render cl.camera cl.camera.get_viewport.w cl.camera.get_viewport.h ∈
      new_effects s.trace
        (server.handle_message V s .Read ⟨MtCamera, bytes_of_camera cl.camera⟩ none).trace ∧
    effect.report "server: size mismatch while reading" ∉
      new_effects s.trace
        (server.handle_message V s .Read ⟨MtCamera, bytes_of_camera cl.camera⟩ none).trace := by
  have hsz : (⟨MtCamera, bytes_of_camera cl.camera⟩ : message).size = sizeof_pinhole_camera :=
    length_bytes_of_camera cl.camera
  obtain ⟨htr, hcam, -, -⟩ := handle_message_camera_read V s
    ⟨MtCamera, bytes_of_camera cl.camera⟩ rfl hsz
  simp only [camera_of_bytes_of_camera] at htr hcam
  refine ⟨?_, ?_, hsz, hcam, by rw [hcam], ?_, ?_⟩
  · simp [client.handle_new_connection, client.write_camera]
  · simp [client.wait_leave, client.write_camera]
  · rw [htr]
    simp [new_effects]
  · rw [htr]
    simp only [new_effects, List.append_assoc, List.drop_left]
    split <;> simp

/-- C8, as stated, fails: the read of a `PointCloud` message does not stop the
connection manager, and a second `Camera` read that arrives while the `PointCloud`
write for the first one is still outstanding is rendered and answered with a write,
again without stopping the connection manager. -/
theorem server_does_not_close_on_unexpected_message :
    effect.stop ∉
      (server.handle_message sample_volrend (server.new (renderer.new zero_camera (0, 0)))
        .Read ⟨MtPointCloud, []⟩ none).trace ∧
    effect.stop ∉
      (server.handle_message sample_volrend
        (server.handle_message sample_volrend (server.new (renderer.new zero_camera (0, 0)))
          .Read ⟨MtCamera, bytes_of_camera zero_camera⟩ none)
        .Read ⟨MtCamera, bytes_of_camera zero_camera⟩ none).trace ∧
    new_effects
      (server.handle_message sample_volrend (server.new (renderer.new zero_camera (0, 0)))
        .Read ⟨MtCamera, bytes_of_camera zero_camera⟩ none).trace
      (server.handle_message sample_volrend
        (server.handle_message sample_volrend (server.new (renderer.new zero_camera (0, 0)))
          .Read ⟨MtCamera, bytes_of_camera zero_camera⟩ none)
        .Read ⟨MtCamera, bytes_of_camera zero_camera⟩ none).trace =
      [effect.render zero_camera 0 0, effect.write ⟨MtPointCloud, []⟩] := by
  decide

/-- C8, amended: the read of a message whose kind is not `Camera` leaves the
server as it is, so nothing is rendered or written and the connection manager is
not stopped; a `Camera` read of the right size is rendered and answered with one
`PointCloud` write in whatever state it arrives; and a callback stops the
connection manager exactly when it carries a transport error. -/
theorem server_ignores_reads_of_other_kinds {σ : Type} (V : volume_renderer σ)
    (s : server σ) (m : message) :
    (m.type ≠ MtCamera → server.handle_message V s .Read m none = s) ∧
    (m.type = MtCamera → m.size = sizeof_pinhole_camera →
      (new_effects s.trace (server.handle_message V s .Read m none).trace).filter
          effect.is_render =
        [effect.render (camera_of_bytes m.data) (camera_of_bytes m.data).get_viewport.w
          (camera_of_bytes m.data).get_viewport.h] ∧
      (new_effects s.trace (server.handle_message V s .Read m none).trace).filter
          effect.is_write =
        [effect.write (server.points_message V (server.handle_message V s .Read m none).rend)] ∧
      effect.stop ∉ new_effects s.trace (server.handle_message V s .Read m none).trace) ∧
    (∀ (r : reason) (e : error_code),
      effect.stop ∈ new_effects s.trace (server.handle_message V s r m e).trace ↔ e ≠ none) := by
  refine ⟨?_, ?_, ?_⟩
  · intro hk
    simp [server.handle_message, hk]
  · intro hk hs
    obtain ⟨htr, -, -, -⟩ := handle_message_camera_read V s m hk hs
    rw [htr]
    simp only [new_effects, List.append_assoc, List.drop_left]
    split <;> simp [effect.is_render, effect.is_write]
  · intro r e
    cases e with
    | some msg => simp [server.handle_message, server.emit, new_effects]
    | none =>
      cases r with
      | Read =>
        by_cases hk : m.type = MtCamera
        · by_cases hs : m.size = sizeof_pinhole_camera
          · obtain ⟨htr, -, -, -⟩ := handle_message_camera_read V s m hk hs
            rw [htr]
            simp only [new_effects, List.append_assoc, List.drop_left]
            split <;> simp
          · simp [server.handle_message, hk, hs, server.emit, new_effects]
        · simp [server.handle_message, hk, new_effects]
      | Write =>
        by_cases hk : m.type = MtPointCloud
        · simp [server.handle_message, hk, server.emit, new_effects]
        · simp [server.handle_message, hk, new_effects]

theorem server_ignores_reads_of_other_kinds_witness :
    server.handle_message sample_volrend (server.new (renderer.new zero_camera (0, 0)))
      .Read ⟨MtPointCloud, []⟩ none = server.new (renderer.new zero_camera (0, 0)) :=
  (server_ignores_reads_of_other_kinds sample_volrend
    (server.new (renderer.new zero_camera (0, 0))) ⟨MtPointCloud, []⟩).1 (by decide)

end Server

/-! ## The client: frames -/

theorem length_vector_resize (v : List vec4) (n : Nat) : (vector_resize v n).length = n := by
  simp [vector_resize]
  omega

theorem length_vec4s_of_bytes (n : Nat) (l : List byte) : (vec4s_of_bytes n l).length = n := by
  induction n generalizing l with
  | zero => rfl
  | succ k ih => simp [vec4s_of_bytes, ih]

theorem length_bytes_of_vec4s (v : List vec4) :
    (bytes_of_vec4s v).length = v.length * sizeof_vec4 := by
  induction v with
  | nil => rfl
  | cons a t ih =>
    simp [bytes_of_vec4s, bytes_of_vec4, bytes_of_word, ih, sizeof_vec4]
    omega

theorem length_of_memcpy (dst : List vec4) (src : List byte) (n : Nat) (v : List vec4)
    (h : memcpy dst src n = some v) : v.length = dst.length := by
  unfold memcpy at h
  split at h
  · cases h
  · cases h
    exact length_vec4s_of_bytes _ _

theorem memcpy_whole (dst : List vec4) (src : List byte) (n : Nat)
    (hd : dst.length * sizeof_vec4 = n) (hs : src.length = n) :
    memcpy dst src n = some (vec4s_of_bytes dst.length src) := by
  have h1 : ¬ (src.length < n ∨ dst.length * sizeof_vec4 < n) := by omega
  have h2 : (bytes_of_vec4s dst).drop n = [] := by
    apply List.drop_eq_nil_of_le
    rw [length_bytes_of_vec4s]
    omega
  have h3 : src.take n = src := List.take_of_length_le (by omega)
  simp [memcpy, h1, h2, h3]

theorem filter_is_reset_replicate_reset (n : Nat) (a b : List vec4) (k : Nat) :
    (List.replicate n (sphere_call.reset a b k)).filter sphere_call.is_reset =
      List.replicate n (sphere_call.reset a b k) := by
  induction n with
  | zero => rfl
  | succ m ih => simp [List.replicate_succ, List.filter_cons, sphere_call.is_reset]

theorem filter_is_reset_replicate_render (n : Nat) (cam : pinhole_camera) :
    (List.replicate n (sphere_call.render cam)).filter sphere_call.is_reset = [] := by
  induction n with
  | zero => rfl
  | succ m ih => simp [List.replicate_succ, List.filter_cons, sphere_call.is_reset]

/-- The `reset` calls of one `on_display`, and the flag after it. -/
theorem on_display_resets (r : Client.renderer) :
    (new_calls r.rend r.on_display.rend).filter sphere_call.is_reset =
      (if r.cli.newData then
        List.replicate (if r.measure_bvh_performance then 100 else 1)
          (sphere_call.reset r.cli.spheres r.cli.sphere_colors r.cli.spheres.length)
       else []) ∧
    r.on_display.cli.newData = false := by
  unfold Client.renderer.on_display new_calls
  by_cases hn : r.cli.newData = true
  · simp only [hn, if_true, List.append_assoc, List.drop_left, List.filter_append,
      filter_is_reset_replicate_reset, filter_is_reset_replicate_render, List.append_nil,
      and_self]
  · have hf : r.cli.newData = false := by simpa using hn
    simp [hf, sphere_call.is_reset]

/-- C7: for a viewport of `w` by `h` with `w, h ≥ 1`, a client resized to it that
handles a `PointCloud` message and then a `Colors` message of `w * h` records each
holds exactly the records of the two messages, in order, in `spheres` and
`sphere_colors`, with `newData` set; the next `on_display` passes these two vectors
and the count `w * h` to every `reset` call it makes (one call, or one hundred when
the renderer measures its build time) and clears `newData`; the `on_display` after
it makes no `reset` call. -/
theorem client_delivers_frame (c : client) (w h : Int) (pc col : message)
    (hw : 1 ≤ w) (hh : 1 ≤ h) (hpc : pc.type = MtPointCloud) (hcol : col.type = MtColors)
    (hpl : pc.size = (w * h).toNat * sizeof_vec4)
    (hcl : col.size = (w * h).toNat * sizeof_vec4) :
    ∃ c1 c2 : client,
      (c.resize w h).handle_message .Read pc none = some c1 ∧
      c1.handle_message .Read col none = some c2 ∧
      c2.spheres = vec4s_of_bytes (w * h).toNat pc.data ∧
      c2.sphere_colors = vec4s_of_bytes (w * h).toNat col.data ∧
      ((c2.spheres.length : Int) = w * h ∧ (c2.sphere_colors.length : Int) = w * h) ∧
      c2.newData = true ∧
      ∀ r : Client.renderer, r.cli = c2 →
        (new_calls r.rend r.on_display.rend).filter sphere_call.is_reset =
          List.replicate (if r.measure_bvh_performance then 100 else 1)
            (sphere_call.reset (vec4s_of_bytes (w * h).toNat pc.data)
              (vec4s_of_bytes (w * h).toNat col.data) (w * h).toNat) ∧
        r.on_display.cli.newData = false ∧
        (new_calls r.on_display.rend r.on_display.on_display.rend).filter
          sphere_call.is_reset = [] := by
  have hnn : 0 ≤ w * h := by positivity
  have hlen1 : (c.resize w h).spheres.length = (w * h).toNat := by
    simp [client.resize, length_vector_resize]
  have hlen2 : (c.resize w h).sphere_colors.length = (w * h).toNat := by
    simp [client.resize, length_vector_resize]
  have hm1 := memcpy_whole (c.resize w h).spheres pc.data ((w * h).toNat * sizeof_vec4)
    (by rw [hlen1]) hpl
  have hm2 := memcpy_whole (c.resize w h).sphere_colors col.data
    ((w * h).toNat * sizeof_vec4) (by rw [hlen2]) hcl
  rw [hlen1] at hm1
  rw [hlen2] at hm2
  have hne : MtColors ≠ MtPointCloud := by decide
  refine ⟨{ c.resize w h with spheres := vec4s_of_bytes (w * h).toNat pc.data },
    { c.resize w h with spheres := vec4s_of_bytes (w * h).toNat pc.data,
                        sphere_colors := vec4s_of_bytes (w * h).toNat col.data,
                        newData := true, net := .polling }, ?_, ?_, rfl, rfl, ?_, rfl, ?_⟩
  · have hwh : (c.resize w h).width * (c.resize w h).height = w * h := rfl
    simp only [client.handle_message, hpc, if_true, hwh, hm1, Option.map_some']
  · have hwh : (c.resize w h).width * (c.resize w h).height = w * h := rfl
    simp only [client.handle_message, hcol, hne, if_false, if_true, hwh, hm2, Option.map_some']
  · simp only [length_vec4s_of_bytes]
    exact ⟨Int.toNat_of_nonneg hnn, Int.toNat_of_nonneg hnn⟩
  · intro r hr
    obtain ⟨h1, h2⟩ := on_display_resets r
    obtain ⟨h3, -⟩ := on_display_resets r.on_display
    rw [h2] at h3
    rw [hr] at h1
    simp only [if_true, length_vec4s_of_bytes] at h1
    exact ⟨h1, h2, by simpa using h3⟩

theorem sample_points_message_size :
    sample_points_message.size = ((4 : Int) * 4).toNat * sizeof_vec4 := by
  rw [message.size, sample_points_message, length_bytes_of_vec4s, List.length_replicate]
  rfl

theorem sample_colors_message_size :
    sample_colors_message.size = ((4 : Int) * 4).toNat * sizeof_vec4 := by
  rw [message.size, sample_colors_message, length_bytes_of_vec4s, List.length_replicate]
  rfl

theorem client_delivers_frame_witness :
    (∃ c1 c2 : client,
      ((client.new zero_camera zero_camera).resize 4 4).handle_message .Read
        sample_points_message none = some c1 ∧
      c1.handle_message .Read sample_colors_message none = some c2 ∧
      c2.spheres = vec4s_of_bytes ((4 : Int) * 4).toNat sample_points_message.data ∧
      c2.sphere_colors = vec4s_of_bytes ((4 : Int) * 4).toNat sample_colors_message.data ∧
      ((c2.spheres.length : Int) = 4 * 4 ∧ (c2.sphere_colors.length : Int) = 4 * 4) ∧
      c2.newData = true ∧
      ∀ r : Client.renderer, r.cli = c2 →
        (new_calls r.rend r.on_display.rend).filter sphere_call.is_reset =
          List.replicate (if r.measure_bvh_performance then 100 else 1)
            (sphere_call.reset (vec4s_of_bytes ((4 : Int) * 4).toNat sample_points_message.data)
              (vec4s_of_bytes ((4 : Int) * 4).toNat sample_colors_message.data)
              ((4 : Int) * 4).toNat) ∧
        r.on_display.cli.newData = false ∧
        (new_calls r.on_display.rend r.on_display.on_display.rend).filter
          sphere_call.is_reset = []) ∧
    vec4s_of_bytes ((4 : Int) * 4).toNat sample_points_message.data =
      List.replicate 16 sample_point ∧
    vec4s_of_bytes ((4 : Int) * 4).toNat sample_colors_message.data =
      List.replicate 16 sample_color :=
  ⟨client_delivers_frame (client.new zero_camera zero_camera) 4 4 sample_points_message
    sample_colors_message (by decide) (by decide) rfl rfl sample_points_message_size
    sample_colors_message_size,
   by decide, by decide⟩

/-! ## The client: the frame buffer pair -/

/-- The viewport and the lengths of the two vectors are the same in two clients. -/
theorem handle_message_keeps_sizes (c c1 : client) (r : reason) (m : message) (e : error_code)
    (h : c.handle_message r m e = some c1) :
    c1.width = c.width ∧ c1.height = c.height ∧ c1.spheres.length = c.spheres.length ∧
    c1.sphere_colors.length = c.sphere_colors.length := by
  unfold client.handle_message at h
  cases e with
  | some s =>
    simp only [Option.some.injEq] at h
    subst h
    exact ⟨rfl, rfl, rfl, rfl⟩
  | none =>
    cases r with
    | Write =>
      simp only [Option.some.injEq] at h
      subst h
      exact ⟨rfl, rfl, rfl, rfl⟩
    | Read =>
      simp only at h
      split at h
      · cases hm : memcpy c.spheres m.data ((c.width * c.height).toNat * sizeof_vec4) with
        | none => simp [hm] at h
        | some v =>
          simp only [hm, Option.map_some', Option.some.injEq] at h
          subst h
          exact ⟨rfl, rfl, length_of_memcpy _ _ _ _ hm, rfl⟩
      · split at h
        · cases hm : memcpy c.sphere_colors m.data
              ((c.width * c.height).toNat * sizeof_vec4) with
          | none => simp [hm] at h
          | some v =>
            simp only [hm, Option.map_some', Option.some.injEq] at h
            subst h
            exact ⟨rfl, rfl, rfl, length_of_memcpy _ _ _ _ hm⟩
        · simp only [Option.some.injEq] at h
          subst h
          exact ⟨rfl, rfl, rfl, rfl⟩

theorem resize_buffers_match (c : client) (w h : Int) (hw : 0 ≤ w) (hh : 0 ≤ h) :
    (c.resize w h).buffers_match := by
  have hnn : 0 ≤ w * h := mul_nonneg hw hh
  simp only [client.buffers_match, client.resize, length_vector_resize]
  exact ⟨Int.toNat_of_nonneg hnn, Int.toNat_of_nonneg hnn⟩

theorem step_buffers_match (perspective : pinhole_camera → Int → Int → pinhole_camera)
    (r r1 : Client.renderer) (ev : Client.event) (hev : ev.sizes_ok)
    (h : Client.step perspective r ev = some r1) (hinv : r.cli.buffers_match) :
    r1.cli.buffers_match := by
  cases ev with
  | set_camera => cases h; exact hinv
  | cli_resize w h1 => cases h; exact resize_buffers_match _ _ _ hev.1 hev.2
  | on_display =>
    cases h
    unfold Client.renderer.on_display
    by_cases hn : r.cli.newData = true
    · simp only [hn, if_true]
      exact hinv
    · simp only [hn, if_false]
      exact hinv
  | on_mouse_move pressed next =>
    cases h
    cases pressed <;> exact hinv
  | on_mouse_up pressed next =>
    cases h
    cases pressed <;> exact hinv
  | on_resize w h1 => cases h; exact hinv
  | new_connection e =>
    simp only [Client.step] at h
    split at h
    · cases h
      cases e <;> exact hinv
    · cases h
  | completion rs m e =>
    simp only [Client.step] at h
    split at h
    · cases hm : r.cli.handle_message rs m e with
      | none => simp [hm] at h
      | some c1 =>
        simp only [hm, Option.map_some', Option.some.injEq] at h
        subst h
        obtain ⟨h1, h2, h3, h4⟩ := handle_message_keeps_sizes _ _ _ _ _ hm
        simp only [client.buffers_match, h1, h2, h3, h4]
        exact hinv
    · cases h
  | poll =>
    simp only [Client.step] at h
    split at h
    · cases h
      unfold client.wait_poll
      split <;> exact hinv
    · cases h
  | leave =>
    simp only [Client.step] at h
    split at h
    · cases h
      exact hinv
    · cases h

theorem run_buffers_match (perspective : pinhole_camera → Int → Int → pinhole_camera)
    (evs : List Client.event) (r r1 : Client.renderer)
    (hev : ∀ ev ∈ evs, ev.sizes_ok)
    (h : Client.run perspective r evs = some r1) (hinv : r.cli.buffers_match) :
    r1.cli.buffers_match := by
  induction evs generalizing r with
  | nil =>
    simp only [Client.run, Option.some.injEq] at h
    subst h
    exact hinv
  | cons ev rest ih =>
    simp only [Client.run] at h
    cases hs : Client.step perspective r ev with
    | none => simp [hs] at h
    | some r2 =>
      simp only [hs, Option.some_bind] at h
      exact ih r2 (fun e he => hev e (List.mem_cons_of_mem _ he)) h
        (step_buffers_match perspective r r2 ev (hev ev (List.mem_cons_self _ _)) hs hinv)

/-- C10: `client::resize(w, h)` with `w, h ≥ 0` sets `width` and `height` to `w`
and `h` and leaves `w * h` elements in `spheres` and in `sphere_colors`; the
constructor leaves both empty with a viewport of `0` by `0`; `handle_new_connection`
and every part of `handle_message` (any callback that returns, and the two steps of
its busy-wait) leave the viewport and both lengths unchanged, and `handle_message`
returns whenever the buffers match the viewport and the payload has at least
`width * height * 16` bytes; hence `spheres.size() = sphere_colors.size() =
width * height` in every state that a run of the client process reaches. -/
theorem client_buffers_match_viewport :
    (∀ (c : client) (w h : Int), 0 ≤ w → 0 ≤ h →
      (c.resize w h).width = w ∧ (c.resize w h).height = h ∧
      ((c.resize w h).spheres.length : Int) = w * h ∧
      ((c.resize w h).sphere_colors.length : Int) = w * h) ∧
    (∀ a b : pinhole_camera, (client.new a b).buffers_match ∧
      (client.new a b).width = 0 ∧ (client.new a b).height = 0) ∧
    (∀ (c : client) (e : error_code),
      (c.handle_new_connection e).1.width = c.width ∧
      (c.handle_new_connection e).1.height = c.height ∧
      (c.handle_new_connection e).1.spheres = c.spheres ∧
      (c.handle_new_connection e).1.sphere_colors = c.sphere_colors) ∧
    (∀ (c c1 : client) (r : reason) (m : message) (e : error_code),
      c.handle_message r m e = some c1 →
      c1.width = c.width ∧ c1.height = c.height ∧ c1.spheres.length = c.spheres.length ∧
      c1.sphere_colors.length = c.sphere_colors.length) ∧
    (∀ (c : client) (r : reason) (m : message) (e : error_code),
      c.buffers_match → (c.width * c.height).toNat * sizeof_vec4 ≤ m.size →
      ∃ c1 : client, c.handle_message r m e = some c1) ∧
    (∀ c : client,
      c.wait_poll.width = c.width ∧ c.wait_poll.height = c.height ∧
      c.wait_poll.spheres = c.spheres ∧ c.wait_poll.sphere_colors = c.sphere_colors ∧
      c.wait_leave.width = c.width ∧ c.wait_leave.height = c.height ∧
      c.wait_leave.spheres = c.spheres ∧ c.wait_leave.sphere_colors = c.sphere_colors) ∧
    (∀ (perspective : pinhole_camera → Int → Int → pinhole_camera)
      (camera0 old_camera0 cam0 : pinhole_camera) (width height : Int)
      (evs : List Client.event) (r : Client.renderer),
      (∀ ev ∈ evs, ev.sizes_ok) →
      Client.run perspective (Client.start camera0 old_camera0 cam0 width height) evs = some r →
      (r.cli.spheres.length : Int) = r.cli.width * r.cli.height ∧
      (r.cli.sphere_colors.length : Int) = r.cli.width * r.cli.height) := by
  refine ⟨?_, ?_, ?_, ?_, ?_, ?_, ?_⟩
  · intro c w h hw hh
    obtain ⟨h1, h2⟩ := resize_buffers_match c w h hw hh
    exact ⟨rfl, rfl, h1, h2⟩
  · intro a b
    exact ⟨⟨rfl, rfl⟩, rfl, rfl⟩
  · intro c e
    cases e <;> exact ⟨rfl, rfl, rfl, rfl⟩
  · intro c c1 r m e h
    exact handle_message_keeps_sizes c c1 r m e h
  · intro c r m e hinv hsz
    obtain ⟨h1, h2⟩ := hinv
    have hnn : 0 ≤ c.width * c.height := by rw [← h1]; exact Int.natCast_nonneg _
    have e1 : c.spheres.length = (c.width * c.height).toNat := by omega
    have e2 : c.sphere_colors.length = (c.width * c.height).toNat := by omega
    have g1 : ¬ (m.data.length < (c.width * c.height).toNat * sizeof_vec4 ∨
        c.spheres.length * sizeof_vec4 < (c.width * c.height).toNat * sizeof_vec4) := by
      rw [e1]
      simp only [message.size] at hsz
      omega
    have g2 : ¬ (m.data.length < (c.width * c.height).toNat * sizeof_vec4 ∨
        c.sphere_colors.length * sizeof_vec4 < (c.width * c.height).toNat * sizeof_vec4) := by
      rw [e2]
      simp only [message.size] at hsz
      omega
    unfold client.handle_message
    cases e with
    | some s => exact ⟨_, rfl⟩
    | none =>
      cases r with
      | Write => exact ⟨_, rfl⟩
      | Read =>
        simp only [memcpy, g1, g2, if_false, Option.map_some']
        split
        · exact ⟨_, rfl⟩
        · split <;> exact ⟨_, rfl⟩
  · intro c
    refine ⟨?_, ?_, ?_, ?_, rfl, rfl, rfl, rfl⟩ <;>
      · unfold client.wait_poll
        split <;> rfl
  · intro perspective camera0 old_camera0 cam0 width height evs r hev hrun
    exact run_buffers_match perspective evs _ r hev hrun ⟨rfl, rfl⟩

theorem client_buffers_match_viewport_witness :
    ((client.new zero_camera zero_camera).resize 2 3).width = 2 ∧
    ((client.new zero_camera zero_camera).resize 2 3).height = 3 ∧
    (((client.new zero_camera zero_camera).resize 2 3).spheres.length : Int) = 2 * 3 ∧
    (((client.new zero_camera zero_camera).resize 2 3).sphere_colors.length : Int) = 2 * 3 :=
  client_buffers_match_viewport.1 (client.new zero_camera zero_camera) 2 3 (by decide)
    (by decide)

/-! ## The client: camera writes -/

theorem camera_writes_append (t u : List effect) :
    camera_writes (t ++ u) = camera_writes t + camera_writes u := by
  simp [camera_writes]

theorem writes_append (t u : List effect) : writes (t ++ u) = writes t + writes u := by
  simp [writes]

/-- What `handle_message` does to the trace and to the network thread. -/
theorem handle_message_trace (c c1 : client) (r : reason) (m : message) (e : error_code)
    (h : c.handle_message r m e = some c1) :
    camera_writes c1.trace = camera_writes c.trace ∧ writes c1.trace = writes c.trace ∧
    ((r = .Read ∧ m.type = MtColors ∧ e = none ∧ c1.net = .polling) ∨
     (¬ (r = .Read ∧ m.type = MtColors ∧ e = none) ∧ c1.net = c.net)) := by
  unfold client.handle_message at h
  cases e with
  | some s =>
    simp only [Option.some.injEq] at h
    subst h
    refine ⟨?_, ?_, Or.inr ⟨by simp, rfl⟩⟩
    · simp [camera_writes_append, camera_writes, effect.is_write_of]
    · simp [writes_append, writes, effect.is_write]
  | none =>
    cases r with
    | Write =>
      simp only [Option.some.injEq] at h
      subst h
      exact ⟨rfl, rfl, Or.inr ⟨by simp, rfl⟩⟩
    | Read =>
      simp only at h
      split at h
      · rename_i hk
        cases hm : memcpy c.spheres m.data ((c.width * c.height).toNat * sizeof_vec4) with
        | none => simp [hm] at h
        | some v =>
          simp only [hm, Option.map_some', Option.some.injEq] at h
          subst h
          refine ⟨rfl, rfl, Or.inr ⟨?_, rfl⟩⟩
          simp [hk, MtPointCloud, MtColors]
      · split at h
        · rename_i hk
          cases hm : memcpy c.sphere_colors m.data
              ((c.width * c.height).toNat * sizeof_vec4) with
          | none => simp [hm] at h
          | some v =>
            simp only [hm, Option.map_some', Option.some.injEq] at h
            subst h
            exact ⟨rfl, rfl, Or.inl ⟨rfl, hk, rfl, rfl⟩⟩
        · rename_i hk
          simp only [Option.some.injEq] at h
          subst h
          refine ⟨rfl, rfl, Or.inr ⟨?_, rfl⟩⟩
          simp [hk]

theorem is_colors_read_iff (r : reason) (m : message) (e : error_code) :
    (Client.event.completion r m e).is_colors_read = true ↔
      (r = .Read ∧ m.type = MtColors ∧ e = none) := by
  cases r <;> cases e <;> simp [Client.event.is_colors_read]

theorem step_camera_writes (perspective : pinhole_camera → Int → Int → pinhole_camera)
    (r r1 : Client.renderer) (ev : Client.event)
    (h : Client.step perspective r ev = some r1) :
    camera_writes r1.cli.trace + r1.cli.net.pending + r.cli.net.connected =
      camera_writes r.cli.trace + r.cli.net.pending + r1.cli.net.connected +
        (if ev.is_colors_read then 1 else 0) ∧
    writes r1.cli.trace + camera_writes r.cli.trace =
      camera_writes r1.cli.trace + writes r.cli.trace := by
  cases ev with
  | set_camera => cases h; simp [Client.event.is_colors_read]; omega
  | cli_resize w h1 => cases h; simp [Client.event.is_colors_read, client.resize]; omega
  | on_display =>
    cases h
    unfold Client.renderer.on_display
    by_cases hn : r.cli.newData = true
    · simp [hn, Client.event.is_colors_read]; omega
    · simp [hn, Client.event.is_colors_read]; omega
  | on_mouse_move pressed next =>
    cases h
    cases pressed <;> simp [Client.renderer.on_mouse_move, Client.event.is_colors_read] <;> omega
  | on_mouse_up pressed next =>
    cases h
    cases pressed <;> simp [Client.renderer.on_mouse_up, Client.event.is_colors_read] <;> omega
  | on_resize w h1 =>
    cases h
    simp [Client.renderer.on_resize, Client.event.is_colors_read]; omega
  | new_connection e =>
    simp only [Client.step] at h
    split at h
    · rename_i hnet
      cases h
      cases e with
      | some s =>
        simp [client.handle_new_connection, hnet, Client.event.is_colors_read,
          camera_writes_append, writes_append, camera_writes, writes, effect.is_write_of,
          effect.is_write]
        omega
      | none =>
        simp [client.handle_new_connection, client.write_camera, hnet,
          Client.event.is_colors_read, camera_writes_append, writes_append, camera_writes,
          writes, effect.is_write_of, effect.is_write, net_state.pending,
          net_state.connected]
        omega
    · cases h
  | completion rs m e =>
    simp only [Client.step] at h
    split at h
    · rename_i hnet
      cases hm : r.cli.handle_message rs m e with
      | none => simp [hm] at h
      | some c1 =>
        simp only [hm, Option.map_some', Option.some.injEq] at h
        subst h
        obtain ⟨h1, h2, h3⟩ := handle_message_trace _ _ _ _ _ hm
        rcases h3 with ⟨hr, hk, he, hp⟩ | ⟨hno, hp⟩
        · have hc : (Client.event.completion rs m e).is_colors_read = true :=
            (is_colors_read_iff rs m e).2 ⟨hr, hk, he⟩
          rw [h1, h2, hp, hnet, hc]
          simp only [if_true, net_state.pending, net_state.connected]
          exact ⟨trivial, by omega⟩
        · have hc : (Client.event.completion rs m e).is_colors_read = false := by
            cases hb : (Client.event.completion rs m e).is_colors_read
            · rfl
            · exact absurd ((is_colors_read_iff rs m e).1 hb) hno
          simp only [h1, h2, hp, hc]
          simp
          omega
    · cases h
  | poll =>
    simp only [Client.step] at h
    split at h
    · rename_i hnet
      cases h
      unfold client.wait_poll
      split
      · simp [Client.event.is_colors_read]; omega
      · simp [hnet, Client.event.is_colors_read, net_state.pending, net_state.connected]
        omega
    · cases h
  | leave =>
    simp only [Client.step] at h
    split at h
    · rename_i hnet
      cases h
      simp [client.wait_leave, client.write_camera, hnet, Client.event.is_colors_read,
        camera_writes_append, writes_append, camera_writes, writes, effect.is_write_of,
        effect.is_write, net_state.pending, net_state.connected]
      omega
    · cases h

theorem run_camera_writes (perspective : pinhole_camera → Int → Int → pinhole_camera)
    (evs : List Client.event) (r r1 : Client.renderer)
    (h : Client.run perspective r evs = some r1) :
    camera_writes r1.cli.trace + r1.cli.net.pending + r.cli.net.connected =
      camera_writes r.cli.trace + r.cli.net.pending + r1.cli.net.connected +
        colors_received evs ∧
    writes r1.cli.trace + camera_writes r.cli.trace =
      camera_writes r1.cli.trace + writes r.cli.trace := by
  induction evs generalizing r with
  | nil =>
    simp only [Client.run, Option.some.injEq] at h
    subst h
    simp [colors_received]
    omega
  | cons ev rest ih =>
    simp only [Client.run] at h
    cases hs : Client.step perspective r ev with
    | none => simp [hs] at h
    | some r2 =>
      simp only [hs, Option.some_bind] at h
      obtain ⟨a1, a2⟩ := step_camera_writes perspective r r2 ev hs
      obtain ⟨b1, b2⟩ := ih r2 h
      have hc : colors_received (ev :: rest) =
          (if ev.is_colors_read then 1 else 0) + colors_received rest := by
        cases hb : ev.is_colors_read <;> simp [colors_received, List.filter_cons, hb]
        omega
      rw [hc]
      constructor <;> omega

theorem sample_cycle_reaches_end :
    Client.run sample_perspective sample_start sample_cycle = some sample_cycle_end := by
  decide

/-- C11: the client writes a `Camera` message when `handle_new_connection` runs
without error and when `handle_message` leaves its busy-wait, which it enters only
for the read of a `Colors` message; `handle_new_connection` with an error, every
callback of `handle_message` (a `PointCloud` read, a write completion, an error, any
other read) and the evaluation of the wait condition write nothing. Hence in every
run of the client process every write is a `Camera` write and their number is at
most 1 plus the number of `Colors` messages received. -/
theorem client_sends_camera_after_colors :
    (∀ c : client,
      (c.handle_new_connection none).1.trace =
        c.trace ++ [effect.write ⟨MtCamera, bytes_of_camera c.camera⟩] ∧
      c.wait_leave.trace = c.trace ++ [effect.write ⟨MtCamera, bytes_of_camera c.camera⟩] ∧
      c.wait_poll.trace = c.trace) ∧
    (∀ (c : client) (s : String),
      writes (c.handle_new_connection (some s)).1.trace = writes c.trace) ∧
    (∀ (c c1 : client) (r : reason) (m : message) (e : error_code),
      c.handle_message r m e = some c1 →
      writes c1.trace = writes c.trace ∧
      ((r = .Read ∧ m.type = MtColors ∧ e = none ∧ c1.net = .polling) ∨
       (¬ (r = .Read ∧ m.type = MtColors ∧ e = none) ∧ c1.net = c.net))) ∧
    (∀ (perspective : pinhole_camera → Int → Int → pinhole_camera)
      (camera0 old_camera0 cam0 : pinhole_camera) (width height : Int)
      (evs : List Client.event) (r : Client.renderer),
      Client.run perspective (Client.start camera0 old_camera0 cam0 width height) evs = some r →
      writes r.cli.trace = camera_writes r.cli.trace ∧
      camera_writes r.cli.trace ≤ 1 + colors_received evs) := by
  refine ⟨?_, ?_, ?_, ?_⟩
  · intro c
    refine ⟨rfl, rfl, ?_⟩
    unfold client.wait_poll
    split <;> rfl
  · intro c s
    simp [client.handle_new_connection, writes, effect.is_write]
  · intro c c1 r m e h
    obtain ⟨-, h2, h3⟩ := handle_message_trace c c1 r m e h
    exact ⟨h2, h3⟩
  · intro perspective camera0 old_camera0 cam0 width height evs r hrun
    obtain ⟨h1, h2⟩ := run_camera_writes perspective evs _ r hrun
    have e1 : (Client.start camera0 old_camera0 cam0 width height).cli.trace = [] := rfl
    have e2 : (Client.start camera0 old_camera0 cam0 width height).cli.net = .connecting := rfl
    rw [e1, e2] at h1
    rw [e1] at h2
    have hc : r.cli.net.connected ≤ 1 := by
      cases r.cli.net <;> simp [net_state.connected]
    have z1 : camera_writes [] = 0 := rfl
    have z2 : writes [] = 0 := rfl
    have z3 : net_state.connecting.pending = 0 := rfl
    have z4 : net_state.connecting.connected = 0 := rfl
    rw [z1, z3, z4] at h1
    rw [z1, z2] at h2
    omega

theorem client_sends_camera_after_colors_witness :
    writes sample_cycle_end.cli.trace = camera_writes sample_cycle_end.cli.trace ∧
    camera_writes sample_cycle_end.cli.trace ≤ 1 + colors_received sample_cycle :=
  client_sends_camera_after_colors.2.2.2 sample_perspective zero_camera zero_camera
    sample_camera 1 1 sample_cycle sample_cycle_end sample_cycle_reaches_end

/-! ## The client: where the code departs from the specification -/

/-- The method `handle_new_connection` writes the camera without recording it in
`old_camera`, unlike the end of `handle_message`. -/
theorem handle_new_connection_keeps_old_camera (c : client) (e : error_code) :
    (c.handle_new_connection e).1.old_camera = c.old_camera ∧
    c.wait_leave.old_camera = c.camera := by
  cases e <;> exact ⟨rfl, rfl⟩

/-- C1, evaluated at a failing run: `main` copies a camera that differs from the
default-constructed `old_camera`, the connection is established, one `PointCloud`
and one `Colors` message arrive, and the render thread never changes the camera.
The wait condition is false at once, and the client writes the camera that it had
already written at connection time: two equal `Camera` messages in a row. -/
theorem client_repeats_connection_camera :
    (Client.run sample_perspective sample_start sample_cycle).map (fun r => r.cli.trace) =
      some [effect.write ⟨MtCamera, bytes_of_camera sample_camera⟩,
            effect.write ⟨MtCamera, bytes_of_camera sample_camera⟩] ∧
    (Client.run sample_perspective sample_start sample_cycle).map (fun r => r.cli.camera) =
      some sample_camera := by
  rw [sample_cycle_reaches_end]
  exact ⟨rfl, rfl⟩

/-- A read that `handle_message` returns from without error adds nothing to the
trace: no report, no `manager->stop()`. -/
theorem handle_message_read_is_silent (c c1 : client) (m : message)
    (h : c.handle_message .Read m none = some c1) : c1.trace = c.trace := by
  simp only [client.handle_message] at h
  split at h
  · cases hm : memcpy c.spheres m.data ((c.width * c.height).toNat * sizeof_vec4) with
    | none => simp [hm] at h
    | some v =>
      simp only [hm, Option.map_some', Option.some.injEq] at h
      subst h
      rfl
  · split at h
    · cases hm : memcpy c.sphere_colors m.data
          ((c.width * c.height).toNat * sizeof_vec4) with
      | none => simp [hm] at h
      | some v =>
        simp only [hm, Option.map_some', Option.some.injEq] at h
        subst h
        rfl
    · simp only [Option.some.injEq] at h
      subst h
      rfl

/-- C2, evaluated at failing inputs, for a client with a viewport of 1 by 1 (16
bytes expected). A `PointCloud` message of 15 bytes is not rejected: `memcpy` reads
16 bytes from it, past its end. A `PointCloud` message of 32 bytes is not rejected
either: its first record is copied into `spheres`. A `Colors` message of 32 bytes is
copied likewise and sets `newData`. In no case is the connection manager stopped or
an error reported. -/
theorem client_accepts_payload_of_wrong_size :
    ((client.new zero_camera zero_camera).resize 1 1).handle_message .Read
        ⟨MtPointCloud, List.replicate 15 0⟩ none = none ∧
    ((client.new zero_camera zero_camera).resize 1 1).handle_message .Read
        ⟨MtPointCloud, bytes_of_vec4 sample_point ++ bytes_of_vec4 sample_color⟩ none =
      some { (client.new zero_camera zero_camera).resize 1 1 with spheres := [sample_point] } ∧
    ((client.new zero_camera zero_camera).resize 1 1).handle_message .Read
        ⟨MtColors, bytes_of_vec4 sample_color ++ bytes_of_vec4 sample_point⟩ none =
      some { (client.new zero_camera zero_camera).resize 1 1 with
             sphere_colors := [sample_color], newData := true, net := .polling } ∧
    ((client.new zero_camera zero_camera).resize 1 1).trace = [] := by
  decide

/-- The method `renderer::on_resize` of the client never touches the client. -/
theorem on_resize_keeps_client (perspective : pinhole_camera → Int → Int → pinhole_camera)
    (r : Client.renderer) (w h : Int) : (r.on_resize perspective w h).cli = r.cli := rfl

/-- C9, evaluated at a failing input: a client sized 2 by 2 by `main` is still
2 by 2, with 4 elements in each vector, after `on_resize(3, 3)`, although the
camera of the renderer now has a viewport of 3 by 3; a `PointCloud` message sized
for the old viewport of 2 by 2 is still copied into `spheres`. -/
theorem client_viewport_ignores_on_resize :
    ((sample_renderer ((client.new zero_camera zero_camera).resize 2 2)).on_resize
        sample_perspective 3 3).cli.width = 2 ∧
    ((sample_renderer ((client.new zero_camera zero_camera).resize 2 2)).on_resize
        sample_perspective 3 3).cli.height = 2 ∧
    ((sample_renderer ((client.new zero_camera zero_camera).resize 2 2)).on_resize
        sample_perspective 3 3).cli.spheres.length = 4 ∧
    ((sample_renderer ((client.new zero_camera zero_camera).resize 2 2)).on_resize
        sample_perspective 3 3).cli.sphere_colors.length = 4 ∧
    ((sample_renderer ((client.new zero_camera zero_camera).resize 2 2)).on_resize
        sample_perspective 3 3).cam.get_viewport = ⟨0, 0, 3, 3⟩ ∧
    (((sample_renderer ((client.new zero_camera zero_camera).resize 2 2)).on_resize
        sample_perspective 3 3).cli.handle_message .Read
        ⟨MtPointCloud, bytes_of_vec4s (List.replicate 4 sample_point)⟩ none).map
        (fun c => c.spheres) = some (List.replicate 4 sample_point) := by
  decide

end WarpVR
